import Mathlib

/-!
Shallow embedding of `vlbiplanobs/stations.py`: the `Station`, `SelectedStation`
and `Stations` classes of the VLBI calculator, together with proofs of the
specified properties of the station registry and its queries.

Modelling conventions:
* Python `dict` (insertion ordered, unique keys) is an association list
  `List (String × α)`; insertion appends a new key at the end and overwrites an
  existing key in place, matching CPython's order-preserving semantics.
* Numeric values that the code only stores and compares (SEFD figures, elevation
  angles in degrees) are `Rat`.
* A Python exception is a value of `PyErr`; an operation that can raise returns
  `Except PyErr α`, and an in-place mutator that can raise mid-call returns the
  post-state paired with `Option PyErr` (the state component is the object as it
  is left when the exception propagates).
* The altitude/azimuth computation is delegated by the source to the external
  `astroplan.Observer`; `is_visible` therefore takes the elevation sequence
  returned by that external provider as its input.
-/

/-- Python exception kinds raised by the code under study. -/
inductive PyErr where
  | keyError
  | indexError
  | typeError
  | assertionError
  | nameError
deriving DecidableEq, Repr

/-- Lookup in an insertion-ordered dict: `d[key]`, as an `Option`. -/
def dictGet {α : Type} : List (String × α) → String → Option α
  | [], _ => none
  | (k, v) :: rest, key => if k = key then some v else dictGet rest key

/-- Assignment in an insertion-ordered dict: `d[key] = v`. A present key keeps
its position and gets the new value; an absent key is appended at the end. -/
def dictInsert {α : Type} : List (String × α) → String → α → List (String × α)
  | [], key, v => [(key, v)]
  | (k, w) :: rest, key, v =>
      if k = key then (key, v) :: rest else (k, w) :: dictInsert rest key v

/-- Deletion in an insertion-ordered dict: `del d[key]` for a present key. -/
def dictDelete {α : Type} : List (String × α) → String → List (String × α)
  | [], _ => []
  | (k, v) :: rest, key => if k = key then rest else (k, v) :: dictDelete rest key

/-- `name.replace('_', ' ')` from `Station.__init__` (line 43): every underscore
becomes a space (single-character pattern, so a character map). -/
def replaceUnderscores (s : String) : String :=
  String.mk (s.toList.map (fun c => if c = '_' then ' ' else c))

/-- One station record (`class Station`). `obsName` is the name stored in the
`astroplan.Observer` (the constructor name with underscores replaced); the
external observer's geometric state is out of scope. -/
structure Station where
  obsName : String
  codename : String
  network : String
  freqsSefds : List (String × Rat)
  minElev : Rat
  fullname : String
  allNetworks : String
  country : String
  diameter : String
  realTime : Bool
deriving DecidableEq, Repr

/-- `Station.__init__`. `fullname` and `all_networks` default (`None` in the
source) to `name` and `network` respectively; `min_elevation` is taken in
degrees (the source wraps bare numbers in `u.deg`). -/
def Station.init (name codename network : String) (freqsSefds : List (String × Rat))
    (minElevation : Rat) (fullname : Option String) (allNetworks : Option String)
    (country diameter : String) (realTime : Bool) : Station :=
  { obsName := replaceUnderscores name
    codename := codename
    network := network
    freqsSefds := freqsSefds
    minElev := minElevation
    fullname := fullname.getD name
    allNetworks := allNetworks.getD network
    country := country
    diameter := diameter
    realTime := realTime }

/-- `Station.name` property: returns `self.observer.name`. -/
def Station.name (st : Station) : String := st.obsName

/-- `Station.bands` property: the keys of `self._freqs_sefds`. -/
def Station.bands (st : Station) : List String := st.freqsSefds.map Prod.fst

/-- `Station.has_band(band)`: `band in self.bands`. -/
def Station.has_band (st : Station) (band : String) : Bool :=
  st.bands.contains band

/-- `Station.sefd(band)`: `self._freqs_sefds[band]`, raising `KeyError` when the
band is absent. -/
def Station.sefd (st : Station) (band : String) : Except PyErr Rat :=
  match dictGet st.freqsSefds band with
  | some v => Except.ok v
  | none => Except.error PyErr.keyError

/-- `Station.is_visible(obs_times, target)`: the source computes
`elevations = self.elevation(obs_times, target)` by delegation to the external
observer and returns `np.where(elevations >= self.min_elevation)`, i.e. the
ascending indices at which the elevation reaches the minimum. The elevation
sequence produced by the external provider is taken as the input. -/
def Station.is_visible (st : Station) (elevations : List Rat) : List Nat :=
  (List.range elevations.length).filter (fun i => st.minElev ≤ elevations.getD i 0)

/-- A Python value assigned to the `selected` property: only actual `bool`
instances pass the `isinstance(isselected, bool)` assertion. -/
inductive PyVal where
  | pyBool (b : Bool)
  | pyInt (n : Int)
  | pyStr (s : String)
  | pyNone
deriving DecidableEq, Repr

/-- `class SelectedStation(Station)`: a station with the extra mutable
`selected` flag (default `True` at construction). -/
structure SelectedStation where
  toStation : Station
  selected : Bool
deriving DecidableEq, Repr

/-- The `selected` setter: `assert isinstance(isselected, bool)` then
`self._selected = isselected`. The assertion fires before the assignment, so on
failure the object is returned unchanged with an `AssertionError`. -/
def SelectedStation.setSelected (st : SelectedStation) (v : PyVal) :
    SelectedStation × Option PyErr :=
  match v with
  | PyVal.pyBool b => ({ st with selected := b }, none)
  | _ => (st, some PyErr.assertionError)

/-- `class Stations`: the registry. `_stations` is the ordered dict
`codename → Station`; `_keys` is the cached `tuple(self._stations.keys())`. -/
structure Stations where
  _name : String
  _stations : List (String × Station)
  _keys : List String
deriving DecidableEq, Repr

/-- The loop of `Stations.__init__`: for each station, assert that its codename
is not yet a key of `self._stations`, then insert it. -/
def initLoop : List (String × Station) → List Station →
    Except PyErr (List (String × Station))
  | acc, [] => Except.ok acc
  | acc, st :: rest =>
      if (acc.map Prod.fst).contains st.codename then Except.error PyErr.assertionError
      else initLoop (acc ++ [(st.codename, st)]) rest

/-- `Stations.__init__(name, stations)`: builds the dict via `initLoop` (raising
`AssertionError` on a duplicate codename), then caches `_keys`. -/
def Stations.init (name : String) (stationList : List Station) : Except PyErr Stations :=
  match initLoop [] stationList with
  | Except.ok d => Except.ok { _name := name, _stations := d, _keys := d.map Prod.fst }
  | Except.error e => Except.error e

/-- `Stations.keys()`: returns the cached tuple `self._keys`. -/
def Stations.keys (s : Stations) : List String := s._keys

/-- `Stations.stations` property: `list(self._stations.values())`. -/
def Stations.stationList (s : Stations) : List Station := s._stations.map Prod.snd

/-- `Stations.number_of_stations` property: `len(self.stations)`. -/
def Stations.number_of_stations (s : Stations) : Nat := s.stationList.length

/-- `Stations.add(a_station)`: warns (a print, no exception) when the codename
is already present, then assigns `self._stations[codename] = a_station` and
refreshes `self._keys`. -/
def Stations.add (s : Stations) (a_station : Station) : Stations :=
  let d := dictInsert s._stations a_station.codename a_station
  { s with _stations := d, _keys := d.map Prod.fst }

/-- `Stations.__getitem__` with a string key: `self._stations[key]`, raising
`KeyError` when absent. -/
def Stations.getitemKey (s : Stations) (key : String) : Except PyErr Station :=
  match dictGet s._stations key with
  | some v => Except.ok v
  | none => Except.error PyErr.keyError

/-- Python sequence-index adjustment: a negative index counts from the end. -/
def pyTupleAdjust (i : Int) (n : Nat) : Int := if i < 0 then i + n else i

/-- Python tuple indexing `t[i]`: negative indices count from the end, an index
outside the range raises `IndexError`. -/
def tupleIndex (l : List String) (i : Int) : Except PyErr String :=
  if 0 ≤ pyTupleAdjust i l.length ∧ pyTupleAdjust i l.length < (l.length : Int) then
    Except.ok (l.getD (pyTupleAdjust i l.length).toNat (""))
  else Except.error PyErr.indexError

/-- `Stations.__getitem__` with an int key:
`self._stations[self.keys()[key]]`. -/
def Stations.getitemInt (s : Stations) (i : Int) : Except PyErr Station :=
  match tupleIndex s.keys i with
  | Except.ok k => s.getitemKey k
  | Except.error e => Except.error e

/-- `Stations.__setitem__(key, value)` for a string key: dict assignment, then
refresh `self._keys`. -/
def Stations.setitemKey (s : Stations) (key : String) (value : Station) : Stations :=
  let d := dictInsert s._stations key value
  { s with _stations := d, _keys := d.map Prod.fst }

/-- `Stations.__delitem__` with a string key: `self._stations.__delitem__(key)`
(a `KeyError` on an absent key propagates before `_keys` is touched), then
refresh `self._keys`. -/
def Stations.delitemKey (s : Stations) (key : String) : Stations × Option PyErr :=
  if (s._stations.map Prod.fst).contains key then
    let d := dictDelete s._stations key
    ({ s with _stations := d, _keys := d.map Prod.fst }, none)
  else (s, some PyErr.keyError)

/-- `Stations.__delitem__` with an int key: the source runs
`self._stations.__delitem__(self.keys[key])`. `self.keys` (no parentheses) is
the bound method object, and subscripting a method raises `TypeError`
unconditionally, before any deletion happens: the registry is left unchanged. -/
def Stations.delitemInt (s : Stations) (_i : Int) : Stations × Option PyErr :=
  (s, some PyErr.typeError)

/-- `Stations.__contains__(item)`: key membership in `self._stations`. -/
def Stations.containsKey (s : Stations) (item : String) : Bool :=
  (s._stations.map Prod.fst).contains item

/-- `Stations.stations_with_band(band, output_network_name=None)`: the source
computes the default output name `f"Stations@{band}"`, then executes
`antennas = stations.Stations(output_network_name, [])`. The name `stations` is
bound nowhere in the module (it is never imported and is not a local), so this
statement raises `NameError` on every call, before any filtering happens. -/
def Stations.stations_with_band (_s : Stations) (band : String)
    (outputNetworkName : Option String) : Except PyErr Stations :=
  let _outName := outputNetworkName.getD (("Stations@") ++ band)
  Except.error PyErr.nameError

/-- The key-cache invariant: the cached `_keys` tuple equals the keys of the
underlying dict in their current insertion order. -/
def Stations.wf (s : Stations) : Prop := s._keys = s._stations.map Prod.fst

/-! ### Helper lemmas about the ordered-dict operations -/

theorem dictGet_isSome_iff_mem {α : Type} (d : List (String × α)) (key : String) :
    (dictGet d key).isSome = true ↔ key ∈ d.map Prod.fst := by
  induction d with
  | nil => simp [dictGet]
  | cons p rest ih =>
      obtain ⟨k, v⟩ := p
      by_cases h : k = key
      · subst h; simp [dictGet]
      · simp [dictGet, h, ih, Ne.symm h]

theorem dictGet_eq_none_of_not_mem {α : Type} (d : List (String × α)) (key : String)
    (h : key ∉ d.map Prod.fst) : dictGet d key = none := by
  have := (dictGet_isSome_iff_mem d key).not.mpr h
  cases hd : dictGet d key
  · rfl
  · exact absurd (by simp [hd]) this

theorem dictInsert_of_not_mem {α : Type} (d : List (String × α)) (key : String) (v : α)
    (h : key ∉ d.map Prod.fst) : dictInsert d key v = d ++ [(key, v)] := by
  induction d with
  | nil => simp [dictInsert]
  | cons p rest ih =>
      obtain ⟨k, w⟩ := p
      simp only [List.map_cons, List.mem_cons] at h
      push_neg at h
      simp [dictInsert, Ne.symm h.1, ih h.2]

theorem length_dictInsert_of_mem {α : Type} (d : List (String × α)) (key : String) (v : α)
    (h : key ∈ d.map Prod.fst) : (dictInsert d key v).length = d.length := by
  induction d with
  | nil => simp at h
  | cons p rest ih =>
      obtain ⟨k, w⟩ := p
      by_cases hk : k = key
      · simp [dictInsert, hk]
      · simp only [List.map_cons, List.mem_cons] at h
        rcases h with h | h
        · exact absurd h.symm hk
        · simp [dictInsert, hk, ih h]

theorem dictGet_dictInsert_self {α : Type} (d : List (String × α)) (key : String) (v : α) :
    dictGet (dictInsert d key v) key = some v := by
  induction d with
  | nil => simp [dictInsert, dictGet]
  | cons p rest ih =>
      obtain ⟨k, w⟩ := p
      by_cases hk : k = key
      · simp [dictInsert, hk, dictGet]
      · simp [dictInsert, hk, dictGet, ih]

theorem stationList_length {s : Stations} : s.number_of_stations = s._stations.length := by
  simp [Stations.number_of_stations, Stations.stationList]

/-! ### Concrete example values used by the witnesses -/

/-- A sample station: the source's typical EVN entry shape. -/
def egStation : Station :=
  Station.init ("Eff_Bonn") ("Ef") ("EVN") [(("21cm"), 17), (("18cm"), 19)] 20
    none none ("Germany") ("100 m") true

/-- A second sample station with a distinct codename. -/
def egStationWb : Station :=
  Station.init ("Westerbork") ("Wb") ("EVN") [(("21cm"), 420)] 10
    none none ("Netherlands") ("25 m") false

/-- A sample registry holding `egStation`, with its key cache in sync. -/
def egRegistry : Stations :=
  { _name := ("test"), _stations := [(("Ef"), egStation)], _keys := [("Ef")] }

/-- A sample selectable station. -/
def egSelected : SelectedStation := { toStation := egStation, selected := true }

/-! ### Claim theorems -/

/-- C1 (code bug): `stations_with_band` never returns the filtered registry.
The method body constructs the result via `stations.Stations(...)`, but the
name `stations` is not defined anywhere in the module, so every call raises
`NameError` right after the default output name is computed. -/
theorem stations_with_band_always_raises (s : Stations) (band : String)
    (outName : Option String) :
    s.stations_with_band band outName = Except.error PyErr.nameError := rfl

/-- C2 (code bug): deleting by integer index never removes anything. On a
registry holding the single station `Ef`, `del registry[0]` raises `TypeError`
(the source subscripts the bound method `self.keys` instead of calling it), the
registry is left unchanged, and the codename `Ef` is still visible through
containment and through `keys()`. -/
theorem delitem_by_index_raises :
    (egRegistry.delitemInt 0).2 = some PyErr.typeError ∧
    (egRegistry.delitemInt 0).1 = egRegistry ∧
    (egRegistry.delitemInt 0).1.containsKey ("Ef") = true ∧
    (egRegistry.delitemInt 0).1.keys = [("Ef")] :=
  ⟨rfl, rfl, rfl, rfl⟩

/-- C3: on a registry whose key cache is in sync, `add` with a new codename
grows `number_of_stations` by exactly one and appends the codename as the last
element of `keys()`; `add` with an already-present codename keeps
`number_of_stations` unchanged and overwrites the stored entry with the new
record (and, being a total function here, it raises nothing). -/
theorem stations_add_spec (s : Stations) (st : Station) (hw : s.wf) :
    (st.codename ∉ s._stations.map Prod.fst →
      (s.add st).number_of_stations = s.number_of_stations + 1 ∧
      (s.add st).keys = s.keys ++ [st.codename]) ∧
    (st.codename ∈ s._stations.map Prod.fst →
      (s.add st).number_of_stations = s.number_of_stations ∧
      dictGet (s.add st)._stations st.codename = some st) := by
  have hk : s._keys = s._stations.map Prod.fst := hw
  constructor
  · intro h
    constructor
    · simp only [stationList_length, Stations.add, dictInsert_of_not_mem _ _ _ h,
        List.length_append, List.length_singleton]
    · simp only [Stations.add, Stations.keys, dictInsert_of_not_mem _ _ _ h, hk,
        List.map_append, List.map_cons, List.map_nil]
  · intro h
    constructor
    · simp only [stationList_length, Stations.add,
        length_dictInsert_of_mem _ _ _ h]
    · simp only [Stations.add, dictGet_dictInsert_self]

/-- C4: `has_band band` is true exactly when `band` is a key of the station's
SEFD dict; when the key is present `sefd` returns the stored value exactly, and
when it is absent `sefd` raises `KeyError`. -/
theorem station_band_sefd_spec (st : Station) (band : String) :
    (st.has_band band = true ↔ band ∈ st.freqsSefds.map Prod.fst) ∧
    (∀ v, dictGet st.freqsSefds band = some v → st.sefd band = Except.ok v) ∧
    (band ∉ st.freqsSefds.map Prod.fst → st.sefd band = Except.error PyErr.keyError) := by
  refine ⟨?_, ?_, ?_⟩
  · simp [Station.has_band, Station.bands]
  · intro v hv
    simp [Station.sefd, hv]
  · intro h
    simp [Station.sefd, dictGet_eq_none_of_not_mem _ _ h]

/-- C5: `is_visible` returns exactly the indices into the elevation sequence at
which the elevation reaches `min_elevation`; in particular, with
`min_elevation = 20` degrees and elevations `[10, 25, 30]` degrees it selects
exactly the indices 1 and 2. -/
theorem station_is_visible_spec (st : Station) (elevs : List Rat) (i : Nat) :
    (i ∈ st.is_visible elevs ↔ i < elevs.length ∧ st.minElev ≤ elevs.getD i 0) ∧
    (st.minElev = 20 → st.is_visible [10, 25, 30] = [1, 2]) := by
  constructor
  · simp [Station.is_visible, List.mem_filter, List.mem_range]
  · intro h
    simp only [Station.is_visible, h]
    decide

/-! ### Lemmas for the constructor loop -/

theorem initLoop_ok (l : List Station) : ∀ acc : List (String × Station),
    (∀ st ∈ l, st.codename ∉ acc.map Prod.fst) →
    l.Pairwise (fun a b => a.codename ≠ b.codename) →
    initLoop acc l = Except.ok (acc ++ l.map (fun st => (st.codename, st))) := by
  induction l with
  | nil =>
      intro acc _ _
      simp [initLoop]
  | cons st rest ih =>
      intro acc hacc hpw
      have h1 : st.codename ∉ acc.map Prod.fst := hacc st (List.mem_cons_self st rest)
      have hcf : ¬ ((acc.map Prod.fst).contains st.codename = true) := by simpa using h1
      rw [List.pairwise_cons] at hpw
      have hstep : initLoop acc (st :: rest) =
          initLoop (acc ++ [(st.codename, st)]) rest := by
        simp only [initLoop]
        rw [if_neg hcf]
      rw [hstep]
      have hacc2 : ∀ s2 ∈ rest, s2.codename ∉ (acc ++ [(st.codename, st)]).map Prod.fst := by
        intro s2 hs2
        have hna : s2.codename ∉ acc.map Prod.fst :=
          hacc s2 (List.mem_cons_of_mem st hs2)
        have hne : st.codename ≠ s2.codename := hpw.1 s2 hs2
        simp only [List.map_append, List.mem_append, List.map_cons, List.map_nil,
          List.mem_singleton, not_or]
        exact ⟨hna, fun hh => hne hh.symm⟩
      rw [ih (acc ++ [(st.codename, st)]) hacc2 hpw.2]
      simp

theorem initLoop_err (l : List Station) : ∀ acc : List (String × Station),
    ((∃ st ∈ l, st.codename ∈ acc.map Prod.fst) ∨
      ¬ l.Pairwise (fun a b => a.codename ≠ b.codename)) →
    initLoop acc l = Except.error PyErr.assertionError := by
  induction l with
  | nil =>
      intro acc h
      rcases h with ⟨st, hst, _⟩ | hnp
      · exact absurd hst (List.not_mem_nil st)
      · exact absurd List.Pairwise.nil hnp
  | cons st rest ih =>
      intro acc h
      by_cases hc : st.codename ∈ acc.map Prod.fst
      · have hct : (acc.map Prod.fst).contains st.codename = true := by simpa using hc
        simp only [initLoop]
        rw [if_pos hct]
      · have hcf : ¬ ((acc.map Prod.fst).contains st.codename = true) := by simpa using hc
        have hstep : initLoop acc (st :: rest) =
            initLoop (acc ++ [(st.codename, st)]) rest := by
          simp only [initLoop]
          rw [if_neg hcf]
        rw [hstep]
        apply ih
        rcases h with ⟨s2, hs2, hmem⟩ | hnp
        · rcases List.mem_cons.mp hs2 with heq | hmem2
          · exact absurd (heq ▸ hmem) hc
          · exact Or.inl ⟨s2, hmem2, by simp [hmem]⟩
        · by_cases hB : rest.Pairwise (fun a b => a.codename ≠ b.codename)
          · rw [List.pairwise_cons] at hnp
            have hA : ¬ ∀ a2 ∈ rest, st.codename ≠ a2.codename :=
              fun hA => hnp ⟨hA, hB⟩
            push_neg at hA
            obtain ⟨a2, ha2, heq⟩ := hA
            exact Or.inl ⟨a2, ha2, by simp [heq]⟩
          · exact Or.inr hB

/-! ### More claim theorems -/

/-- C6: constructing a registry from a record list raises `AssertionError`
exactly when two input records share a codename; with pairwise-distinct
codenames it succeeds and holds exactly the given records keyed by codename,
in list order. -/
theorem stations_init_spec (nm : String) (l : List Station) :
    (l.Pairwise (fun a b => a.codename ≠ b.codename) →
      Stations.init nm l = Except.ok
        { _name := nm, _stations := l.map (fun st => (st.codename, st)),
          _keys := l.map (fun st => st.codename) }) ∧
    (¬ l.Pairwise (fun a b => a.codename ≠ b.codename) →
      Stations.init nm l = Except.error PyErr.assertionError) := by
  constructor
  · intro hpw
    have h := initLoop_ok l [] (by simp) hpw
    rw [List.nil_append] at h
    simp [Stations.init, h, List.map_map]
  · intro hnp
    have h := initLoop_err l [] (Or.inr hnp)
    simp [Stations.init, h]

/-- C7: the key-cache invariant holds after construction and after every
mutating operation: `add`, assignment by key, deletion by key (both the success
and the `KeyError` path) and deletion by index (which raises `TypeError` with
the registry unchanged), each leave `keys()` equal to the keys of the
underlying dict in insertion order. -/
theorem stations_keys_cache_invariant (nm : String) (l : List Station)
    (r s : Stations) (st : Station) (k : String) (i : Int) (hw : s.wf) :
    (Stations.init nm l = Except.ok r → r.wf) ∧
    (s.add st).wf ∧ (s.setitemKey k st).wf ∧
    (s.delitemKey k).1.wf ∧ (s.delitemInt i).1.wf := by
  refine ⟨?_, ?_, ?_, ?_, ?_⟩
  · intro h
    unfold Stations.init at h
    cases hl : initLoop [] l with
    | ok d =>
        rw [hl] at h
        cases h
        rfl
    | error e =>
        rw [hl] at h
        cases h
  · rfl
  · rfl
  · by_cases hc : (s._stations.map Prod.fst).contains k = true
    · unfold Stations.delitemKey
      rw [if_pos hc]
      rfl
    · unfold Stations.delitemKey
      rw [if_neg hc]
      exact hw
  · exact hw

/-- C8: on a registry whose key cache is in sync and for any position
`0 ≤ i < number_of_stations`, `keys()[i]` yields a key `k` and integer access
`registry[i]` returns exactly the record that key access `registry[k]`
returns. -/
theorem stations_index_key_access (s : Stations) (i : Nat) (hw : s.wf)
    (hi : i < s.number_of_stations) :
    ∃ k r, tupleIndex s.keys i = Except.ok k ∧
      s.getitemInt i = Except.ok r ∧ s.getitemKey k = Except.ok r := by
  have hk : s._keys = s._stations.map Prod.fst := hw
  have hlen : s.keys.length = s.number_of_stations := by
    rw [Stations.keys, hk, stationList_length, List.length_map]
  have hil : i < s.keys.length := by rw [hlen]; exact hi
  have hadj : pyTupleAdjust (i : Int) s.keys.length = (i : Int) := by
    unfold pyTupleAdjust
    rw [if_neg (by omega)]
  have hti : tupleIndex s.keys i = Except.ok (s.keys.getD i ("")) := by
    unfold tupleIndex
    rw [if_pos (by rw [hadj]; omega)]
    rw [hadj]
    simp
  have hgd : s.keys.getD i ("") = s.keys[i] := by
    simp [List.getD_eq_getElem?_getD, List.getElem?_eq_getElem hil]
  have hmem : s.keys.getD i ("") ∈ s._stations.map Prod.fst := by
    rw [hgd, ← hk]
    exact List.getElem_mem hil
  obtain ⟨r, hr⟩ := Option.isSome_iff_exists.mp
    ((dictGet_isSome_iff_mem s._stations (s.keys.getD i (""))).mpr hmem)
  have hkey : s.getitemKey (s.keys.getD i ("")) = Except.ok r := by
    unfold Stations.getitemKey
    rw [hr]
  refine ⟨s.keys.getD i (""), r, hti, ?_, hkey⟩
  unfold Stations.getitemInt
  rw [hti]
  exact hkey

/-- C9: assigning a boolean to `selected` succeeds and stores exactly that
boolean; assigning any non-boolean value raises `AssertionError` at assignment
time and leaves the stored flag (indeed the whole record) unchanged. -/
theorem selected_setter_spec (st : SelectedStation) (v : PyVal) :
    (∀ b, v = PyVal.pyBool b →
      st.setSelected v = ({ st with selected := b }, none)) ∧
    ((∀ b, v ≠ PyVal.pyBool b) →
      st.setSelected v = (st, some PyErr.assertionError)) := by
  constructor
  · intro b hb
    subst hb
    rfl
  · intro hb
    cases v with
    | pyBool b => exact absurd rfl (hb b)
    | pyInt n => rfl
    | pyStr s2 => rfl
    | pyNone => rfl

theorem map_urep_ne (l : List Char) :
    ('_') ∈ l → l.map (fun c => if c = ('_') then (' ') else c) ≠ l := by
  induction l with
  | nil =>
      intro h
      simp at h
  | cons c rest ih =>
      intro h
      by_cases hcu : c = ('_')
      · subst hcu
        intro heq
        injection heq with h1 h2
        simp at h1
      · intro heq
        injection heq with h1 h2
        have hmem : ('_') ∈ rest := by
          rcases List.mem_cons.mp h with hc | hc
          · exact absurd hc.symm hcu
          · exact hc
        exact ih hmem h2

/-- C10: a station constructed from a name exposes, through the `name`
property, that name with every underscore replaced by a space, while the
defaulted `fullname` stays the original unmodified name; hence for a name
containing an underscore the two differ. -/
theorem station_name_fullname_spec (name codename network country diameter : String)
    (fs : List (String × Rat)) (me : Rat) (an : Option String) (rt : Bool) :
    (Station.init name codename network fs me none an country diameter rt).name
      = replaceUnderscores name ∧
    (Station.init name codename network fs me none an country diameter rt).fullname
      = name ∧
    (('_') ∈ name.toList →
      (Station.init name codename network fs me none an country diameter rt).name
        ≠ (Station.init name codename network fs me none an country diameter rt).fullname) := by
  refine ⟨rfl, rfl, ?_⟩
  intro h hne
  have h2 : (name.toList.map (fun c => if c = ('_') then (' ') else c)) = name.toList := by
    have h3 := congrArg String.toList hne
    simpa [Station.init, Station.name, Station.fullname, replaceUnderscores] using h3
  exact map_urep_ne name.toList h h2

/-! ### Witnesses: the claim theorems instantiated at concrete inputs -/

/-- Witness for `stations_add_spec`: adding `Wb` to the one-station registry
`{Ef}` appends it; re-adding `Ef` keeps the count and overwrites. -/
theorem stations_add_spec_witness :
    ((egRegistry.add egStationWb).number_of_stations = egRegistry.number_of_stations + 1 ∧
      (egRegistry.add egStationWb).keys = egRegistry.keys ++ [egStationWb.codename]) ∧
    ((egRegistry.add egStation).number_of_stations = egRegistry.number_of_stations ∧
      dictGet (egRegistry.add egStation)._stations egStation.codename = some egStation) :=
  ⟨(stations_add_spec egRegistry egStationWb rfl).1 (by decide),
   (stations_add_spec egRegistry egStation rfl).2 (by decide)⟩

/-- Witness for `station_band_sefd_spec`: `egStation` observes the 21cm band
with SEFD 17 and has no 15cm entry. -/
theorem station_band_sefd_spec_witness :
    (egStation.has_band ("21cm") = true ↔ ("21cm") ∈ egStation.freqsSefds.map Prod.fst) ∧
    egStation.sefd ("21cm") = Except.ok 17 ∧
    egStation.sefd ("15cm") = Except.error PyErr.keyError :=
  ⟨(station_band_sefd_spec egStation ("21cm")).1,
   (station_band_sefd_spec egStation ("21cm")).2.1 17 (by decide),
   (station_band_sefd_spec egStation ("15cm")).2.2 (by decide)⟩

/-- Witness for `station_is_visible_spec`: `egStation` has a 20-degree minimum
elevation and selects exactly indices 1 and 2 of the sequence `[10, 25, 30]`. -/
theorem station_is_visible_spec_witness :
    egStation.is_visible [10, 25, 30] = [1, 2] :=
  (station_is_visible_spec egStation [10, 25, 30] 0).2 (by decide)

/-- Witness for `stations_init_spec`: distinct codenames `Ef`, `Wb` construct
fine; the duplicated `Ef` fails the assertion. -/
theorem stations_init_spec_witness :
    Stations.init ("evn") [egStation, egStationWb] = Except.ok
      { _name := ("evn"),
        _stations := [egStation, egStationWb].map (fun st => (st.codename, st)),
        _keys := [egStation, egStationWb].map (fun st => st.codename) } ∧
    Stations.init ("dup") [egStation, egStation] = Except.error PyErr.assertionError :=
  ⟨(stations_init_spec ("evn") [egStation, egStationWb]).1 (by decide),
   (stations_init_spec ("dup") [egStation, egStation]).2 (by decide)⟩

/-- Witness for `stations_keys_cache_invariant` at the concrete registry
`{Ef}`, adding/assigning `Wb`, deleting the key `Ef` and index 0. -/
theorem stations_keys_cache_invariant_witness :
    (Stations.init ("evn") [egStation] = Except.ok egRegistry → egRegistry.wf) ∧
    (egRegistry.add egStationWb).wf ∧ (egRegistry.setitemKey ("Ef") egStationWb).wf ∧
    (egRegistry.delitemKey ("Ef")).1.wf ∧ (egRegistry.delitemInt 0).1.wf :=
  stations_keys_cache_invariant ("evn") [egStation] egRegistry egRegistry egStationWb
    ("Ef") 0 rfl

/-- Witness for `stations_index_key_access` at position 0 of the registry
`{Ef}`. -/
theorem stations_index_key_access_witness :
    ∃ k r, tupleIndex egRegistry.keys ((0 : Nat) : Int) = Except.ok k ∧
      egRegistry.getitemInt ((0 : Nat) : Int) = Except.ok r ∧
      egRegistry.getitemKey k = Except.ok r :=
  stations_index_key_access egRegistry 0 rfl (by decide)

/-- Witness for `selected_setter_spec`: assigning `False` updates the flag;
assigning the integer 3 raises and leaves the record unchanged. -/
theorem selected_setter_spec_witness :
    egSelected.setSelected (PyVal.pyBool false) =
      ({ egSelected with selected := false }, none) ∧
    egSelected.setSelected (PyVal.pyInt 3) = (egSelected, some PyErr.assertionError) :=
  ⟨(selected_setter_spec egSelected (PyVal.pyBool false)).1 false rfl,
   (selected_setter_spec egSelected (PyVal.pyInt 3)).2 (fun _ h => PyVal.noConfusion h)⟩

/-- Witness for `station_name_fullname_spec` at the underscored name
`Eff_Bonn`: the displayed name gets a space, the defaulted fullname stays
`Eff_Bonn`, and the two differ. -/
theorem station_name_fullname_spec_witness :
    egStation.name = replaceUnderscores ("Eff_Bonn") ∧
    egStation.fullname = ("Eff_Bonn") ∧
    egStation.name ≠ egStation.fullname := by
  have h := station_name_fullname_spec ("Eff_Bonn") ("Ef") ("EVN") ("Germany") ("100 m")
    [(("21cm"), 17), (("18cm"), 19)] 20 none true
  exact ⟨h.1, h.2.1, h.2.2 (by decide)⟩
